import Mathlib

/-!
Shallow embedding of the TypeScript codebase analyzer core
(`src/services/typescript-code-mapper.service.ts`, the `Result` wrapper
appended to `src/error/validation-error.ts`) and proofs about its
extraction pipeline.

External collaborators (the TypeScript compiler API: type checker,
printer, source-file lookup, glob, and the `path`/`fs` modules) are
modelled as oracles carried in a `Mapper` record; AST nodes carry
exactly the fields the analyzer reads.
-/

namespace TsAnalyzer

/-- The `Result` wrapper from `src/error/validation-error.ts`
(`class Result<T>`): fields `isSuccess`, `data?`, `message?`,
`errorCode?`.  An absent (`undefined`) field is `none`. -/
structure Result (α : Type) where
  isSuccess : Bool
  data : Option α
  message : Option String
  errorCode : Option Nat
deriving Repr, DecidableEq

/-- `getValue(): T { return this.data; }` — the payload as stored
(`undefined` is `none`). -/
def Result.getValue {α : Type} (r : Result α) : Option α := r.data

/-- `static ok<U>(data: U, message?: string): Result<U>` -/
def Result.ok {α : Type} (data : α) (message : Option String) : Result α :=
  ⟨true, some data, message, none⟩

/-- `static fail<U>(data: U, message?: string): Result<U>` -/
def Result.fail {α : Type} (data : α) (message : Option String) : Result α :=
  ⟨false, some data, message, none⟩

/-- The members declared by `class Result<T>` in
`src/error/validation-error.ts`: its four fields, `getValue`, and the
two static constructors.  (Read directly off the class body; the class
declares no other method.) -/
def resultClassMembers : List String :=
  ["isSuccess", "data", "message", "errorCode", "getValue", "ok", "fail"]

/-! ## Extracted-metadata records (`src/interfaces/generic.interface.ts`) -/

/-- `IProperty { name: string; type?: string }` -/
structure PropertyInfo where
  name : String
  type : Option String
deriving Repr, DecidableEq

/-- `IFunctionInfo { name; content; parameters; returnType?; comments? }` -/
structure FunctionInfo where
  name : String
  content : String
  parameters : List PropertyInfo
  returnType : Option String
  comments : String
deriving Repr, DecidableEq

/-- `IInterfaceInfo { name; properties; summary? }` -/
structure InterfaceInfo where
  name : String
  properties : List PropertyInfo
  summary : String
deriving Repr, DecidableEq

/-- One `{ name, value }` record of `extractEnumInfo`. -/
structure EnumMemberInfo where
  name : String
  value : Option String
deriving Repr, DecidableEq

/-- `IEnumInfo { name; members; summary? }` -/
structure EnumInfo where
  name : String
  members : List EnumMemberInfo
  summary : String
deriving Repr, DecidableEq

/-- `IClassInfo { name?; functions; properties; interfaces; enums }`
as built by `extractClassMetaData`. -/
structure ClassInfo where
  name : Option String
  functions : List FunctionInfo
  properties : List PropertyInfo
  interfaces : List InterfaceInfo
  enums : List EnumInfo
deriving Repr, DecidableEq

/-- `IModuleInfo` as built by `extractModuleInfo`: the object literal has
no `properties` key (the interface marks it optional), hence
`properties : Option _` here, `none` meaning the field is absent. -/
structure ModuleInfo where
  path : String
  classes : List ClassInfo
  functions : List FunctionInfo
  properties : Option (List PropertyInfo)
  interfaces : List InterfaceInfo
  enums : List EnumInfo
  dependencies : List String
deriving Repr, DecidableEq

/-- `ICodebaseMap`: exactly one top-level project key per run
(`codebaseMap[repoNames] = { modules: {} }`); the `modules` object is an
insertion-ordered key/value list. -/
structure CodebaseMap where
  repoName : String
  modules : List (String × ModuleInfo)
deriving Repr, DecidableEq

/-! ## AST nodes

Each node carries the fields the analyzer reads, plus an `id` used by
the type-checker / printer oracles (standing for the node's identity in
the real tree). -/

/-- A `ts.ParameterDeclaration`: name text and whether a type
annotation (`param.type`) is present. -/
structure ParamNode where
  id : Nat
  name : String
  hasType : Bool
deriving Repr, DecidableEq

/-- A `ts.PropertyDeclaration`. -/
structure PropertyNode where
  id : Nat
  name : String
  hasType : Bool
deriving Repr, DecidableEq

/-- A `ts.FunctionDeclaration` / `ts.MethodDeclaration`: optional name
(`node.name` may be absent), parameters, whether a return-type
annotation (`node.type`) is present, and the bodies of the JSDoc
comments attached to it (`comment.comment` may be absent). -/
structure FunctionNode where
  id : Nat
  name : Option String
  params : List ParamNode
  hasRetType : Bool
  jsdoc : List (Option String)
deriving Repr, DecidableEq

/-- A `ts.GetAccessorDeclaration` / `ts.SetAccessorDeclaration`
(`SyntaxKind.GetAccessor` / `SyntaxKind.SetAccessor` — distinct kinds
from `MethodDeclaration`). -/
structure AccessorNode where
  id : Nat
  name : String
  params : List ParamNode
  hasRetType : Bool
deriving Repr, DecidableEq

/-- A member of an interface body: a property signature (with or
without a type annotation) or a method signature. -/
inductive InterfaceMember where
  | propSig (id : Nat) (name : String) (hasType : Bool)
  | methodSig (id : Nat) (name : String)
deriving Repr, DecidableEq

/-- A `ts.InterfaceDeclaration`. -/
structure InterfaceNode where
  name : String
  members : List InterfaceMember
  jsdoc : List (Option String)
deriving Repr, DecidableEq

/-- One `ts.EnumMember`: name and, when an `initializer` is present,
its source text (`member.initializer.getText(sourceFile)`). -/
structure EnumMemberNode where
  name : String
  initText : Option String
deriving Repr, DecidableEq

/-- A `ts.EnumDeclaration`. -/
structure EnumNode where
  name : String
  members : List EnumMemberNode
  jsdoc : List (Option String)
deriving Repr, DecidableEq

/-- A `ts.ImportDeclaration`; only its identity is read (it is printed
through the printer oracle). -/
structure ImportNode where
  id : Nat
deriving Repr, DecidableEq

/-- The node kinds the analyzer dispatches on.  `classDecl` carries the
class's optional name (`node?.name?.getText`) and its direct members;
`eofToken` is the `endOfFileToken` child of a source file; every other
statement kind (variable statements, expression statements, ...) is
`otherNode`. -/
inductive TsNode where
  | method (f : FunctionNode)
  | func (f : FunctionNode)
  | prop (p : PropertyNode)
  | getAcc (a : AccessorNode)
  | setAcc (a : AccessorNode)
  | interfaceDecl (i : InterfaceNode)
  | enumDecl (e : EnumNode)
  | classDecl (name : Option String) (members : List TsNode)
  | importDecl (imp : ImportNode)
  | eofToken
  | otherNode
deriving Repr

/-- A `ts.SourceFile`: its `statements` array. -/
structure SourceFile where
  statements : List TsNode
deriving Repr

/-- `ts.forEachChild` on a `SourceFile` visits `node.statements` and
then `node.endOfFileToken`, so every source file — even an empty one —
has at least one child. -/
def SourceFile.children (sf : SourceFile) : List TsNode :=
  sf.statements ++ [TsNode.eofToken]

/-! ### The `ts.is*` node-kind predicates -/

def isMethodDeclaration : TsNode → Bool
  | .method _ => true
  | _ => false

def isFunctionDeclaration : TsNode → Bool
  | .func _ => true
  | _ => false

def isPropertyDeclaration : TsNode → Bool
  | .prop _ => true
  | _ => false

def isInterfaceDeclaration : TsNode → Bool
  | .interfaceDecl _ => true
  | _ => false

def isEnumDeclaration : TsNode → Bool
  | .enumDecl _ => true
  | _ => false

def isClassDeclaration : TsNode → Bool
  | .classDecl _ _ => true
  | _ => false

def isImportDeclaration : TsNode → Bool
  | .importDecl _ => true
  | _ => false

/-- The node, seen through
`isMethodDeclaration(n) || isFunctionDeclaration(n)`: the underlying
function-shaped node when either predicate holds.  Get/set accessors
have their own syntax kinds, so they yield `none` here, exactly as both
`ts.is*` predicates answer `false` on them. -/
def TsNode.asFunctionLike : TsNode → Option FunctionNode
  | .method f => some f
  | .func f => some f
  | _ => none

/-- `node?.name?.getText(sourceFile)` for a class declaration. -/
def TsNode.className : TsNode → Option String
  | .classDecl n _ => n
  | _ => none

/-- `node.members` for a class declaration. -/
def TsNode.classMembers : TsNode → List TsNode
  | .classDecl _ ms => ms
  | _ => []

/-- A top-level statement that introduces no declaration the analyzer
extracts: import statements, the EOF token, and all `otherNode`
statements. -/
def isDeclarationNode : TsNode → Bool
  | .method _ => true
  | .func _ => true
  | .prop _ => true
  | .getAcc _ => true
  | .setAcc _ => true
  | .interfaceDecl _ => true
  | .enumDecl _ => true
  | .classDecl _ _ => true
  | .importDecl _ => false
  | .eofToken => false
  | .otherNode => false

/-! ## The service instance and its collaborators -/

/-- The state of a `TypeScriptCodeMapper` instance plus the external
collaborators it calls:

* `checker` — `this.typeChecker`, when defined, as the composite
  `typeToString(getTypeAtLocation(node))` display-string oracle;
* `printNode` — `ts.createPrinter({removeComments: b}).printNode`,
  the flag being `removeComments` (`createPrinter()` with no options
  has `removeComments` false, i.e. comments preserved);
* `getSourceFile` — `this.program?.getSourceFile`;
* `cwd`, `basename`, `relative` — `process.cwd()`, `path.basename`,
  `path.relative`;
* `tsFiles` — the list the `glob` call of `getTsFiles` resolves to. -/
structure Mapper where
  checker : Option (Nat → String)
  printNode : Bool → Nat → String
  getSourceFile : String → Option SourceFile
  cwd : String
  basename : String → String
  relative : String → String → String
  tsFiles : List String

/-- `getTypeAtLocation(node)`:
`Result.ok(this.typeChecker?.typeToString(this.typeChecker.getTypeAtLocation(node)))`
— `undefined` when the checker is undefined. -/
def getTypeAtLocation (st : Mapper) (id : Nat) : Result (Option String) :=
  Result.ok (st.checker.map (fun c => c id)) none

/-- `getComment(node)`:
`ts.getJSDocCommentsAndTags(node).map(c => c.comment || "").join("\n")`. -/
def getComment (jsdoc : List (Option String)) : String :=
  String.intercalate "\n" (jsdoc.map (fun c => c.getD ""))

/-- `getPrintedNode(node, sourceFile)` — printer created with
`removeComments: true`. -/
def getPrintedNode (st : Mapper) (f : FunctionNode) : String :=
  st.printNode true f.id

/-- `extractPropertyParameters(node, sourceFile)`: with a type
annotation, `getTypeAtLocation(node).getValue()`; without one, the
inferred `typeChecker?.getTypeAtLocation(node)` stringified (a
`ts.Type` object is always truthy, so the `undefined` fallback fires
exactly when the checker is undefined). -/
def extractPropertyParameters (st : Mapper) (node : PropertyNode) :
    Result PropertyInfo :=
  let type : Option String :=
    if node.hasType then
      (getTypeAtLocation st node.id).getValue.join
    else
      st.checker.map (fun c => c node.id)
  Result.ok { name := node.name, type := type } none

/-- `extractFunctionParameters(node, sourceFile)`: each parameter maps
to `{ name, type }`, the type resolved only when the parameter carries
an annotation (`param.type ? ... : undefined` — no inference). -/
def extractFunctionParameters (st : Mapper) (node : FunctionNode) :
    Result (List PropertyInfo) :=
  Result.ok
    (node.params.map (fun param =>
      { name := param.name
        type :=
          if param.hasType then (getTypeAtLocation st param.id).getValue.join
          else none }))
    none

/-- `functionDetailsMapper(name, content, parameters, node)`. -/
def functionDetailsMapper (st : Mapper) (name content : String)
    (parameters : List PropertyInfo) (node : FunctionNode) : FunctionInfo :=
  { name := name
    content := content
    parameters := parameters
    returnType :=
      if node.hasRetType then (getTypeAtLocation st node.id).getValue.join
      else some "any"
    comments := getComment node.jsdoc }

/-- `getFunctionDetails(node, sourceFile)`: `null` when the node has no
name, otherwise `Result.ok` of the composed details.
(`.getValue()` on the parameters result always finds the stored list;
the `getD []` totalizes the read of that ever-present payload.) -/
def getFunctionDetails (st : Mapper) (node : FunctionNode) :
    Option (Result FunctionInfo) :=
  match node.name with
  | none => none
  | some nm =>
      let content := getPrintedNode st node
      let parameters := (extractFunctionParameters st node).getValue.getD []
      some (Result.ok (functionDetailsMapper st nm content parameters node) none)

/-- `extractInterfaceInfo(node, sourceFile)`: members filtered to
property signatures, each mapped to `{ name, type }` with `"any"` for
an unannotated property. -/
def extractInterfaceInfo (st : Mapper) (node : InterfaceNode) :
    Result InterfaceInfo :=
  let properties : List PropertyInfo :=
    node.members.filterMap (fun m =>
      match m with
      | .propSig mid mname mhasType =>
          some { name := mname
                 type :=
                   if mhasType then (getTypeAtLocation st mid).getValue.join
                   else some "any" }
      | .methodSig _ _ => none)
  Result.ok
    { name := node.name, properties := properties,
      summary := getComment node.jsdoc } none

/-- `extractEnumInfo(node, sourceFile)`. -/
def extractEnumInfo (node : EnumNode) : Result EnumInfo :=
  Result.ok
    { name := node.name
      members := node.members.map (fun m => { name := m.name, value := m.initText })
      summary := getComment node.jsdoc } none

/-- `buildDependencyGraph(sourceFile)`:
`sourceFile.statements.filter(ts.isImportDeclaration).map(i => ts.createPrinter().printNode(..., i, sourceFile))`
— the filter and map fused into one `filterMap`; the printer carries
`removeComments` false (comments preserved). -/
def buildDependencyGraph (st : Mapper) (sourceFile : SourceFile) : List String :=
  sourceFile.statements.filterMap (fun s =>
    match s with
    | .importDecl imp => some (st.printNode false imp.id)
    | _ => none)

/-- `push` through the optional chain `info?.properties?.push(x)`:
a no-op when the `properties` field is absent. -/
def pushOptional (l : Option (List PropertyInfo)) (x : PropertyInfo) :
    Option (List PropertyInfo) :=
  match l with
  | none => none
  | some xs => some (xs ++ [x])

/-- `processClassMembers(node, sourceFile, info, member?)` instantiated
at `info: IClassInfo`.  `currentElement = member ? member : node`; the
four `if` blocks run in order: function-like members append to
`functions`, property declarations to `properties`, and — testing
`node`, not `currentElement` — interface/enum declarations append to
`interfaces`/`enums`.  A get/set accessor member satisfies none of the
predicates, so no block fires for it. -/
def processClassMembersClass (st : Mapper) (node : TsNode)
    (member : Option TsNode) (info : ClassInfo) : ClassInfo :=
  let currentElement := member.getD node
  let info :=
    match currentElement.asFunctionLike with
    | some f =>
        match (getFunctionDetails st f).bind Result.getValue with
        | some fi => { info with functions := info.functions ++ [fi] }
        | none => info
    | none => info
  let info :=
    match currentElement with
    | .prop p =>
        match (extractPropertyParameters st p).getValue with
        | some pr => { info with properties := info.properties ++ [pr] }
        | none => info
    | _ => info
  let info :=
    match node with
    | .interfaceDecl itf =>
        match (extractInterfaceInfo st itf).getValue with
        | some ii => { info with interfaces := info.interfaces ++ [ii] }
        | none => info
    | _ => info
  match node with
  | .enumDecl en =>
      match (extractEnumInfo en).getValue with
      | some ei => { info with enums := info.enums ++ [ei] }
      | none => info
  | _ => info

/-- `processClassMembers` instantiated at `info: IModuleInfo` (the calls
from `buildCodebaseMap`, where no `member` is passed, so
`currentElement = node`).  Identical dispatch; the property push goes
through the optional chain since a module record has no `properties`
array. -/
def processClassMembersModule (st : Mapper) (node : TsNode)
    (info : ModuleInfo) : ModuleInfo :=
  let currentElement := node
  let info :=
    match currentElement.asFunctionLike with
    | some f =>
        match (getFunctionDetails st f).bind Result.getValue with
        | some fi => { info with functions := info.functions ++ [fi] }
        | none => info
    | none => info
  let info :=
    match currentElement with
    | .prop p =>
        match (extractPropertyParameters st p).getValue with
        | some pr => { info with properties := pushOptional info.properties pr }
        | none => info
    | _ => info
  let info :=
    match node with
    | .interfaceDecl itf =>
        match (extractInterfaceInfo st itf).getValue with
        | some ii => { info with interfaces := info.interfaces ++ [ii] }
        | none => info
    | _ => info
  match node with
  | .enumDecl en =>
      match (extractEnumInfo en).getValue with
      | some ei => { info with enums := info.enums ++ [ei] }
      | none => info
  | _ => info

/-- `extractClassMetaData(node, sourceFile)`: a fresh `IClassInfo`,
then `node.members.forEach(member => processClassMembers(node, sourceFile, classInfo, member))`,
wrapped in `Result.ok`. -/
def extractClassMetaData (st : Mapper) (node : TsNode) : Result ClassInfo :=
  let classInfo : ClassInfo :=
    { name := node.className, functions := [], properties := [],
      interfaces := [], enums := [] }
  let classInfo :=
    node.classMembers.foldl
      (fun acc member => processClassMembersClass st node (some member) acc)
      classInfo
  Result.ok classInfo none

/-- `extractModuleInfo(sourceFile, relativePath)`: the literal has no
`properties` key. -/
def extractModuleInfo (st : Mapper) (sourceFile : SourceFile)
    (relativePath : String) : ModuleInfo :=
  { path := relativePath
    classes := []
    functions := []
    properties := none
    interfaces := []
    enums := []
    dependencies := buildDependencyGraph st sourceFile }

/-- JS object assignment `modules[key] = value` on an insertion-ordered
object: replace in place when the key exists, else append. -/
def setKey : List (String × ModuleInfo) → String → ModuleInfo →
    List (String × ModuleInfo)
  | [], k, v => [(k, v)]
  | kv :: rest, k, v =>
      if kv.1 == k then (k, v) :: rest else kv :: setKey rest k v

/-- JS object read `modules[key]`. -/
def lookupKey : List (String × ModuleInfo) → String → Option ModuleInfo
  | [], _ => none
  | kv :: rest, k => if kv.1 == k then some kv.2 else lookupKey rest k

/-- The module-record updates of one `ts.forEachChild` callback run in
`buildCodebaseMap`: push the class metadata when the child is a class
declaration, then run `processClassMembers(node, sourceFile, moduleInfo)`. -/
def moduleChildUpdate (st : Mapper) (mi : ModuleInfo) (child : TsNode) :
    ModuleInfo :=
  let mi :=
    if isClassDeclaration child then
      match (extractClassMetaData st child).getValue with
      | some ci => { mi with classes := mi.classes ++ [ci] }
      | none => mi
    else mi
  processClassMembersModule st child mi

/-- One step of the `ts.forEachChild` callback in `buildCodebaseMap`,
acting on the accumulated `(modules, moduleInfo)` pair: the module
updates of `moduleChildUpdate`, then the assignment
`codebaseMap[repoNames].modules[moduleRalativePath] = moduleInfo`. -/
def buildCodebaseMapChildStep (st : Mapper) (rel : String)
    (acc : List (String × ModuleInfo) × ModuleInfo) (child : TsNode) :
    List (String × ModuleInfo) × ModuleInfo :=
  let mi := moduleChildUpdate st acc.2 child
  (setKey acc.1 rel mi, mi)

/-- The module record a file ends up with after `buildCodebaseMap` has
visited all of its children. -/
def moduleFor (st : Mapper) (sourceFile : SourceFile) (rel : String) :
    ModuleInfo :=
  sourceFile.children.foldl (moduleChildUpdate st)
    (extractModuleInfo st sourceFile rel)

/-- The `tsFiles.forEach` loop of `buildCodebaseMap`, with the loop's
`throw` surfaced as `Except.error`: each file resolves its source file
(raising `No source file found for <path>` when the provider yields
none), builds a fresh module record, and folds the per-child step over
the file's children. -/
def buildCodebaseMapGo (st : Mapper) (rootDir : String) :
    List String → List (String × ModuleInfo) →
    Except String (List (String × ModuleInfo))
  | [], modules => Except.ok modules
  | filePath :: rest, modules =>
      let moduleRelativePath := st.relative rootDir filePath
      match st.getSourceFile filePath with
      | none => Except.error ("No source file found for " ++ filePath)
      | some sourceFile =>
          let moduleInfo := extractModuleInfo st sourceFile moduleRelativePath
          let res :=
            sourceFile.children.foldl
              (buildCodebaseMapChildStep st moduleRelativePath)
              (modules, moduleInfo)
          buildCodebaseMapGo st rootDir rest res.1

/-- `buildCodebaseMap()`: one project key named
`path.basename(process.cwd())`, the per-file loop over `getTsFiles()`,
and the final `Result.ok(codebaseMap)` — or the raised error. -/
def buildCodebaseMap (st : Mapper) : Except String (Result CodebaseMap) :=
  let rootDir := st.cwd
  let repoNames := st.basename rootDir
  match buildCodebaseMapGo st rootDir st.tsFiles [] with
  | Except.error e => Except.error e
  | Except.ok modules =>
      Except.ok (Result.ok { repoName := repoNames, modules := modules } none)

/-! ## `findProjectRoot` and its filesystem model

A filesystem path is its root (`path.parse(p).root`) plus the component
list below it; a path is the filesystem root iff that list is empty.
`path.dirname` drops the last component; `fs.existsSync` is an
oracle. -/

structure FsPath where
  rootName : String
  comps : List String
deriving Repr, DecidableEq

/-- `path.join(dir, name)`. -/
def pathJoin (p : FsPath) (name : String) : FsPath :=
  ⟨p.rootName, p.comps ++ [name]⟩

/-- The `while (currentDir !== path.parse(currentDir).root)` loop of
`findProjectRoot`, structurally recursing on the *reversed* component
list (popping the head of the reversed list is `path.dirname`): test
`currentDir/package.json`, return `currentDir` on a hit, else step to
the parent; once the root is reached the loop exits and
`process.cwd()` is returned. -/
def findProjectRootAux (existsSync : FsPath → Bool) (cwd : FsPath)
    (rt : String) : List String → FsPath
  | [] => cwd
  | c :: rest =>
      let currentDir : FsPath := ⟨rt, (c :: rest).reverse⟩
      if existsSync (pathJoin currentDir "package.json") then currentDir
      else findProjectRootAux existsSync cwd rt rest

/-- `findProjectRoot(currentDir)` (default argument `process.cwd()` is
passed explicitly). -/
def findProjectRoot (existsSync : FsPath → Bool) (cwd currentDir : FsPath) :
    FsPath :=
  findProjectRootAux existsSync cwd currentDir.rootName currentDir.comps.reverse

/-! ## Characterization helpers -/

/-- The modules object produced by a `buildCodebaseMap` run on files
that all resolve: every file upserts its final module record under its
root-relative path. -/
def modulesAfter (st : Mapper) (rootDir : String) :
    List String → List (String × ModuleInfo) → List (String × ModuleInfo)
  | [], acc => acc
  | fp :: rest, acc =>
      modulesAfter st rootDir rest
        (match st.getSourceFile fp with
         | some sf => setKey acc (st.relative rootDir fp)
             (moduleFor st sf (st.relative rootDir fp))
         | none => acc)

/-! ## Concrete fixtures (used by witnesses and counterexamples) -/

/-- A concrete type-checker display-string oracle. -/
def sampleChecker : Nat → String :=
  fun n => if n == 2 then "string" else "number"

/-- A concrete service instance with a defined type checker. -/
def sampleMapper : Mapper :=
  { checker := some sampleChecker
    printNode := fun b n => (if b then "code " else "import ") ++ toString n
    getSourceFile := fun _ => none
    cwd := "/repo"
    basename := fun _ => "repo"
    relative := fun _ p => p
    tsFiles := [] }

/-- The class of the repository's own unit test
(`typescript-code-mapper.service.spec.ts`): one method, one property,
one get accessor, one set accessor. -/
def accessorClass : TsNode :=
  TsNode.classDecl (some "TestClass")
    [ TsNode.method ⟨1, some "testMethod", [], true, []⟩,
      TsNode.prop ⟨2, "testProperty", true⟩,
      TsNode.getAcc ⟨3, "testGetter", [], true⟩,
      TsNode.setAcc ⟨4, "testSetter", [⟨5, "value", true⟩], false⟩ ]

/-- A named function node with no return-type annotation. -/
def unannotatedFun : FunctionNode :=
  { id := 7, name := some "plain", params := [], hasRetType := false, jsdoc := [] }

/-- A function node with one annotated and one unannotated parameter. -/
def twoParamFun : FunctionNode :=
  { id := 8, name := some "two",
    params := [⟨11, "a", true⟩, ⟨12, "b", false⟩],
    hasRetType := true, jsdoc := [] }

/-- A property declaration without a type annotation. -/
def untypedProp : PropertyNode := { id := 2, name := "count", hasType := false }

/-- A source file holding a single import statement and nothing else. -/
def importOnlyFile : SourceFile := ⟨[TsNode.importDecl ⟨21⟩]⟩

/-- A service instance whose provider resolves `a.ts` (to the file of
one import) but yields no tree for `b.ts`. -/
def missingTreeMapper : Mapper :=
  { sampleMapper with
    tsFiles := ["a.ts", "b.ts"]
    getSourceFile := fun p => if p == "a.ts" then some importOnlyFile else none }

/-- A service instance discovering one import-only file. -/
def oneFileMapper : Mapper :=
  { sampleMapper with
    tsFiles := ["a.ts"]
    getSourceFile := fun p => if p == "a.ts" then some importOnlyFile else none }

/-- A filesystem oracle where the only `package.json` anywhere sits
directly in the filesystem root. -/
def rootOnlyPkg : FsPath → Bool :=
  fun p => p == ⟨"/", ["package.json"]⟩

/-! ## Theorems -/

/-- C2: the dispatch of `processClassMembers` has no branch for get/set
accessor members (`isMethodDeclaration`/`isFunctionDeclaration` are
false on the distinct accessor syntax kinds), so on the repository's
own unit-test class — one method, one property, one getter, one
setter — `extractClassMetaData` extracts exactly one function record
(the method) and nothing for either accessor, where the repository's
test `typescript-code-mapper.service.spec.ts` expects
`classInfo.functions` to have length 3 (method, getter, setter). -/
theorem extractClassMetaData_drops_accessor_members :
    ∃ ci, (extractClassMetaData sampleMapper accessorClass).getValue = some ci ∧
      ci.functions.map FunctionInfo.name = ["testMethod"] ∧
      ci.functions.length = 1 ∧
      ci.properties.map PropertyInfo.name = ["testProperty"] :=
  ⟨_, rfl, rfl, rfl, rfl⟩

/-- C4: the `Result` class of the source exposes the Boolean field
`isSuccess`, `getValue()`, and the static constructors `ok`/`fail` —
it has no `isOk()` and no `getError()` member, although `ok(v)` does
carry `isSuccess = true` with payload `v`, and `fail` carries
`isSuccess = false` with its failure information in `message`. -/
theorem result_wrapper_lacks_isOk_getError :
    resultClassMembers.contains "isOk" = false ∧
    resultClassMembers.contains "getError" = false ∧
    (Result.ok (42 : Nat) none).isSuccess = true ∧
    (Result.ok (42 : Nat) none).getValue = some 42 ∧
    (Result.fail (7 : Nat) (some "boom")).isSuccess = false ∧
    (Result.fail (7 : Nat) (some "boom")).message = some "boom" :=
  ⟨rfl, rfl, rfl, rfl, rfl, rfl⟩

/-- C3: for a named function or method node, the extracted
`FunctionInfo.returnType` is the checker's display string for the node
when a return-type annotation is present, and is the literal string
`"any"` whenever no annotation is present — in particular when no type
is inferable. -/
theorem getFunctionDetails_returnType_spec (st : Mapper) (f : FunctionNode)
    (nm : String) (h : f.name = some nm) :
    ∃ r fi, getFunctionDetails st f = some r ∧ r.getValue = some fi ∧
      (∀ c, st.checker = some c → f.hasRetType = true →
        fi.returnType = some (c f.id)) ∧
      (f.hasRetType = false → fi.returnType = some "any") := by
  have hdetails : getFunctionDetails st f =
      some (Result.ok (functionDetailsMapper st nm (getPrintedNode st f)
        ((extractFunctionParameters st f).getValue.getD []) f) none) := by
    unfold getFunctionDetails
    rw [h]
  refine ⟨_, _, hdetails, rfl, ?_, ?_⟩
  · intro c hc hret
    simp [functionDetailsMapper, getTypeAtLocation, Result.getValue, Result.ok,
      hret, hc]
  · intro hret
    simp [functionDetailsMapper, hret]

/-- Witness for C3 at a concrete unannotated function. -/
theorem getFunctionDetails_returnType_witness :
    ∃ r fi, getFunctionDetails sampleMapper unannotatedFun = some r ∧
      r.getValue = some fi ∧ fi.returnType = some "any" := by
  obtain ⟨r, fi, h1, h2, _, h4⟩ :=
    getFunctionDetails_returnType_spec sampleMapper unannotatedFun "plain" rfl
  exact ⟨r, fi, h1, h2, h4 rfl⟩

/-- C10: every `Result` the extraction operations hand back is built by
`Result.ok` — `isSuccess` is `true` on each of them, and a completed
`buildCodebaseMap` run likewise returns a success-variant `Result`;
failures leave the core only as a raised error, never as a
failure-variant `Result`. -/
theorem extraction_results_always_ok (st : Mapper) (cls : TsNode)
    (p : PropertyNode) (f g : FunctionNode) (itf : InterfaceNode)
    (en : EnumNode) :
    (extractClassMetaData st cls).isSuccess = true ∧
    (extractPropertyParameters st p).isSuccess = true ∧
    (extractFunctionParameters st f).isSuccess = true ∧
    (∀ r, getFunctionDetails st g = some r → r.isSuccess = true) ∧
    (extractInterfaceInfo st itf).isSuccess = true ∧
    (extractEnumInfo en).isSuccess = true ∧
    (∀ res, buildCodebaseMap st = Except.ok res → res.isSuccess = true) := by
  refine ⟨rfl, rfl, rfl, ?_, rfl, rfl, ?_⟩
  · intro r hr
    unfold getFunctionDetails at hr
    match hname : g.name with
    | none => rw [hname] at hr; exact absurd hr (by simp)
    | some nm =>
        rw [hname] at hr
        simp only [Option.some.injEq] at hr
        rw [← hr]
        rfl
  · intro res hres
    simp only [buildCodebaseMap] at hres
    split at hres
    · exact absurd hres (by simp)
    · simp only [Except.ok.injEq] at hres
      rw [← hres]
      rfl

/-- Witness for C10: the two conditional conclusions discharged at a
concrete named function and a concrete completed run. -/
theorem extraction_results_always_ok_witness :
    (Result.ok
      ({ name := "plain", content := "code 7", parameters := [],
         returnType := some "any", comments := "" } : FunctionInfo)
      none).isSuccess = true ∧
    (Result.ok
      ({ repoName := "repo",
         modules := [("a.ts",
           { path := "a.ts", classes := [], functions := [],
             properties := none, interfaces := [], enums := [],
             dependencies := ["import 21"] })] } : CodebaseMap)
      none).isSuccess = true := by
  constructor
  · exact (extraction_results_always_ok sampleMapper TsNode.otherNode
      untypedProp unannotatedFun unannotatedFun ⟨"I", [], []⟩
      ⟨"E", [], []⟩).2.2.2.1 _ rfl
  · exact (extraction_results_always_ok oneFileMapper TsNode.otherNode
      untypedProp unannotatedFun unannotatedFun ⟨"I", [], []⟩
      ⟨"E", [], []⟩).2.2.2.2.2.2 _ rfl

/-- C8: `buildCodebaseMap` is a pure function of the provider snapshot:
two runs whose collaborators (checker, printer, source-file lookup,
working directory, path operations, discovered file set) answer
identically produce identical codebase maps. -/
theorem buildCodebaseMap_deterministic (st1 st2 : Mapper)
    (hchecker : st1.checker = st2.checker)
    (hprint : ∀ b n, st1.printNode b n = st2.printNode b n)
    (hsrc : ∀ p, st1.getSourceFile p = st2.getSourceFile p)
    (hcwd : st1.cwd = st2.cwd)
    (hbase : ∀ s, st1.basename s = st2.basename s)
    (hrel : ∀ a b, st1.relative a b = st2.relative a b)
    (hfiles : st1.tsFiles = st2.tsFiles) :
    buildCodebaseMap st1 = buildCodebaseMap st2 := by
  have hst : st1 = st2 := by
    cases st1
    cases st2
    simp only [Mapper.mk.injEq]
    exact ⟨hchecker, funext fun b => funext fun n => hprint b n,
      funext hsrc, hcwd, funext hbase,
      funext fun a => funext fun b => hrel a b, hfiles⟩
  rw [hst]

/-- Witness for C8 at a concrete one-file provider snapshot. -/
theorem buildCodebaseMap_deterministic_witness :
    buildCodebaseMap oneFileMapper = buildCodebaseMap oneFileMapper :=
  buildCodebaseMap_deterministic oneFileMapper oneFileMapper rfl
    (fun _ _ => rfl) (fun _ => rfl) rfl (fun _ => rfl) (fun _ _ => rfl) rfl

/-- The upward walk of `findProjectRoot` returns `process.cwd()` when
every directory it can test — all of which carry a nonempty component
list, i.e. sit strictly below the filesystem root — lacks a
`package.json`. -/
theorem findProjectRootAux_all_false (existsSync : FsPath → Bool)
    (cwd : FsPath) (rt : String)
    (h : ∀ d : FsPath, d.comps ≠ [] →
      existsSync (pathJoin d "package.json") = false) :
    ∀ l : List String, findProjectRootAux existsSync cwd rt l = cwd := by
  intro l
  induction l with
  | nil => rfl
  | cons c rest ih =>
      simp only [findProjectRootAux]
      rw [h ⟨rt, (c :: rest).reverse⟩ (by simp)]
      simpa using ih

/-- C9: the while-loop of `findProjectRoot` tests only directories
strictly below the filesystem root, so when no such directory holds a
`package.json` — no matter whether one exists at the root itself, and
including a start directory that already is the root — the function
returns `process.cwd()`. -/
theorem findProjectRoot_returns_cwd (existsSync : FsPath → Bool)
    (cwd start : FsPath)
    (h : ∀ d : FsPath, d.comps ≠ [] →
      existsSync (pathJoin d "package.json") = false) :
    findProjectRoot existsSync cwd start = cwd :=
  findProjectRootAux_all_false existsSync cwd start.rootName h
    start.comps.reverse

/-- Witness for C9: the start directory is the filesystem root, a
`package.json` exists directly at the root, and the result is the
(distinct) current working directory. -/
theorem findProjectRoot_returns_cwd_witness :
    findProjectRoot rootOnlyPkg ⟨"/", ["home", "user"]⟩ ⟨"/", []⟩ =
      ⟨"/", ["home", "user"]⟩ ∧
    rootOnlyPkg (pathJoin ⟨"/", []⟩ "package.json") = true ∧
    (⟨"/", ["home", "user"]⟩ : FsPath) ≠ ⟨"/", []⟩ := by
  refine ⟨?_, rfl, by decide⟩
  apply findProjectRoot_returns_cwd
  intro d hd
  have hne : pathJoin d "package.json" ≠ ⟨"/", ["package.json"]⟩ := by
    intro he
    apply hd
    have hcomps : d.comps ++ ["package.json"] = ["package.json"] := by
      have := congrArg FsPath.comps he
      simpa [pathJoin] using this
    simpa using hcomps
  simpa [rootOnlyPkg] using beq_eq_false_iff_ne.mpr hne

/-- A file whose parsed tree the provider cannot supply raises the
run-aborting error as soon as the loop reaches it, whatever files
remain after it. -/
theorem buildCodebaseMapGo_error_at (st : Mapper) (rootDir fp : String)
    (post : List String) (hfp : st.getSourceFile fp = none) :
    ∀ (pre : List String) (modules : List (String × ModuleInfo)),
      (∀ p ∈ pre, st.getSourceFile p ≠ none) →
      buildCodebaseMapGo st rootDir (pre ++ fp :: post) modules =
        Except.error ("No source file found for " ++ fp) := by
  intro pre
  induction pre with
  | nil =>
      intro modules _
      simp only [List.nil_append]
      unfold buildCodebaseMapGo
      rw [hfp]
  | cons q rest ih =>
      intro modules hpre
      have hq : st.getSourceFile q ≠ none := hpre q (by simp)
      obtain ⟨sf, hsf⟩ := Option.ne_none_iff_exists'.mp hq
      simp only [List.cons_append]
      unfold buildCodebaseMapGo
      rw [hsf]
      exact ih _ (fun p hp => hpre p (by simp [hp]))

/-- C5: when the Parse/Type Provider yields no tree for a discovered
path, `buildCodebaseMap` fails as a whole with the raised
`No source file found for <path>` error: the remaining files are never
processed and no map is returned. -/
theorem buildCodebaseMap_missing_tree_fatal (st : Mapper)
    (pre : List String) (fp : String) (post : List String)
    (hsplit : st.tsFiles = pre ++ fp :: post)
    (hpre : ∀ p ∈ pre, st.getSourceFile p ≠ none)
    (hfp : st.getSourceFile fp = none) :
    buildCodebaseMap st = Except.error ("No source file found for " ++ fp) := by
  simp only [buildCodebaseMap]
  rw [hsplit, buildCodebaseMapGo_error_at st st.cwd fp post hfp pre [] hpre]

/-- Witness for C5: a two-file discovery where the second file has no
parsed tree; the whole run errors on that file. -/
theorem buildCodebaseMap_missing_tree_fatal_witness :
    buildCodebaseMap missingTreeMapper =
      Except.error ("No source file found for " ++ "b.ts") :=
  buildCodebaseMap_missing_tree_fatal missingTreeMapper ["a.ts"] "b.ts" []
    rfl
    (by
      intro p hp
      simp only [List.mem_singleton] at hp
      subst hp
      simp [missingTreeMapper, importOnlyFile])
    rfl

/-- C6: `buildDependencyGraph` emits exactly one string per top-level
statement that is an import: its length is the number of such
statements, and an import occurring anywhere in the statement list
contributes its comment-preserving printed text at that position (so
repeated imports stay repeated, in declaration order), while a
non-import statement contributes nothing. -/
theorem buildDependencyGraph_imports_spec (st : Mapper) :
    (∀ sf : SourceFile,
      (buildDependencyGraph st sf).length =
        sf.statements.countP isImportDeclaration) ∧
    (∀ (pre post : List TsNode) (imp : ImportNode),
      buildDependencyGraph st ⟨pre ++ TsNode.importDecl imp :: post⟩ =
        buildDependencyGraph st ⟨pre⟩ ++
          st.printNode false imp.id :: buildDependencyGraph st ⟨post⟩) ∧
    (∀ (pre post : List TsNode) (s : TsNode),
      isImportDeclaration s = false →
      buildDependencyGraph st ⟨pre ++ s :: post⟩ =
        buildDependencyGraph st ⟨pre ++ post⟩) := by
  refine ⟨?_, ?_, ?_⟩
  · intro sf
    obtain ⟨stmts⟩ := sf
    induction stmts with
    | nil => rfl
    | cons a l ih =>
        cases a <;>
          simp only [buildDependencyGraph, List.filterMap_cons,
            List.countP_cons, isImportDeclaration] at ih ⊢ <;>
          simp [ih]
  · intro pre post imp
    simp [buildDependencyGraph, List.filterMap_append, List.filterMap_cons]
  · intro pre post s hs
    cases s <;> simp_all [buildDependencyGraph, List.filterMap_append,
      List.filterMap_cons, isImportDeclaration]

/-- Witness for C6: a non-import statement contributes nothing to a
concrete file's dependency list. -/
theorem buildDependencyGraph_imports_witness :
    buildDependencyGraph sampleMapper
        ⟨[TsNode.otherNode, TsNode.importDecl ⟨1⟩]⟩ =
      buildDependencyGraph sampleMapper ⟨[TsNode.importDecl ⟨1⟩]⟩ :=
  (buildDependencyGraph_imports_spec sampleMapper).2.2 []
    [TsNode.importDecl ⟨1⟩] TsNode.otherNode rfl

/-- C7: `extractFunctionParameters` maps the parameters in order; a
parameter with a type annotation gets the checker's display string, a
parameter without one gets `type = none` with no inference attempted —
even though the checker is available — whereas
`extractPropertyParameters` on an unannotated property does infer a
type from the declaration node. -/
theorem extractFunctionParameters_no_inference (st : Mapper)
    (f : FunctionNode) (p : PropertyNode) (c : Nat → String)
    (hc : st.checker = some c) (hp : p.hasType = false) :
    ∃ props : List PropertyInfo,
      (extractFunctionParameters st f).getValue = some props ∧
      props.length = f.params.length ∧
      (∀ (i : Nat) (param : ParamNode), f.params[i]? = some param →
        props[i]? =
          some ({ name := param.name,
                  type := if param.hasType then some (c param.id)
                    else none } : PropertyInfo)) ∧
      (extractPropertyParameters st p).getValue =
        some ({ name := p.name, type := some (c p.id) } : PropertyInfo) := by
  refine ⟨_, rfl, ?_, ?_, ?_⟩
  · simp [extractFunctionParameters]
  · intro i param hparam
    simp only [extractFunctionParameters, Result.ok, Result.getValue,
      List.getElem?_map, hparam, Option.map_some, Option.some.injEq]
    simp [getTypeAtLocation, Result.getValue, Result.ok, hc]
  · simp [extractPropertyParameters, hp, hc, Result.getValue, Result.ok]

/-- Witness for C7 at a function with one annotated and one unannotated
parameter, alongside an unannotated property. -/
theorem extractFunctionParameters_no_inference_witness :
    ∃ props : List PropertyInfo,
      (extractFunctionParameters sampleMapper twoParamFun).getValue =
        some props ∧
      props.length = twoParamFun.params.length ∧
      (∀ (i : Nat) (param : ParamNode), twoParamFun.params[i]? = some param →
        props[i]? =
          some ({ name := param.name,
                  type := if param.hasType then some (sampleChecker param.id)
                    else none } : PropertyInfo)) ∧
      (extractPropertyParameters sampleMapper untypedProp).getValue =
        some ({ name := untypedProp.name,
                type := some (sampleChecker untypedProp.id) } : PropertyInfo) :=
  extractFunctionParameters_no_inference sampleMapper twoParamFun
    untypedProp sampleChecker rfl rfl

/-- Re-assigning the same key overwrites the earlier assignment. -/
theorem setKey_setKey (m : List (String × ModuleInfo)) (k : String)
    (v w : ModuleInfo) : setKey (setKey m k v) k w = setKey m k w := by
  induction m with
  | nil => simp [setKey]
  | cons kv rest ih =>
      cases hk : kv.1 == k with
      | true => simp [setKey, hk]
      | false => simp [setKey, hk, ih]

/-- Reading back the key just assigned. -/
theorem lookupKey_setKey_self (m : List (String × ModuleInfo)) (k : String)
    (v : ModuleInfo) : lookupKey (setKey m k v) k = some v := by
  induction m with
  | nil => simp [setKey, lookupKey]
  | cons kv rest ih =>
      cases hk : kv.1 == k with
      | true => simp [setKey, lookupKey, hk]
      | false => simp [setKey, lookupKey, hk, ih]

/-- Assignment leaves other keys untouched. -/
theorem lookupKey_setKey_ne (m : List (String × ModuleInfo)) (k k' : String)
    (v : ModuleInfo) (h : k' ≠ k) :
    lookupKey (setKey m k v) k' = lookupKey m k' := by
  induction m with
  | nil => simp [setKey, lookupKey, beq_eq_false_iff_ne.mpr (Ne.symm h)]
  | cons kv rest ih =>
      cases hk : kv.1 == k with
      | true =>
          have hkv : kv.1 = k := eq_of_beq hk
          simp [setKey, lookupKey, hk, hkv,
            beq_eq_false_iff_ne.mpr (Ne.symm h)]
      | false => simp [setKey, lookupKey, hk, ih]

/-- The map component of the per-child fold inside one file's
`forEachChild` run: the children list always ends with the EOF token,
so the fold performs at least one assignment and its final map is the
incoming map with the file's final module record upserted. -/
theorem childFold_append_single (st : Mapper) (rel : String) (e : TsNode) :
    ∀ (l : List TsNode) (mp : List (String × ModuleInfo)) (mi : ModuleInfo),
      ((l ++ [e]).foldl (buildCodebaseMapChildStep st rel) (mp, mi)).1 =
        setKey mp rel ((l ++ [e]).foldl (moduleChildUpdate st) mi) := by
  intro l
  induction l with
  | nil => intro mp mi; rfl
  | cons c l' ih =>
      intro mp mi
      simp only [List.cons_append, List.foldl_cons, buildCodebaseMapChildStep]
      rw [ih, setKey_setKey]

/-- A `buildCodebaseMap` run over files that all resolve succeeds and
produces exactly the `modulesAfter` upsert sequence. -/
theorem buildCodebaseMapGo_resolved (st : Mapper) (rootDir : String) :
    ∀ (fps : List String) (modules : List (String × ModuleInfo)),
      (∀ p ∈ fps, st.getSourceFile p ≠ none) →
      buildCodebaseMapGo st rootDir fps modules =
        Except.ok (modulesAfter st rootDir fps modules) := by
  intro fps
  induction fps with
  | nil => intro modules _; rfl
  | cons fp rest ih =>
      intro modules hres
      obtain ⟨sf, hsf⟩ := Option.ne_none_iff_exists'.mp (hres fp (by simp))
      unfold buildCodebaseMapGo modulesAfter
      rw [hsf]
      have hfold := childFold_append_single st (st.relative rootDir fp)
        TsNode.eofToken sf.statements modules
        (extractModuleInfo st sf (st.relative rootDir fp))
      simp only [SourceFile.children] at hfold ⊢
      rw [hfold]
      exact ih _ (fun p hp => hres p (by simp [hp]))

/-- `modulesAfter` does not touch keys outside the processed files'
relative paths. -/
theorem lookupKey_modulesAfter_notMem (st : Mapper) (rootDir : String) :
    ∀ (fps : List String) (acc : List (String × ModuleInfo)) (k : String),
      k ∉ fps.map (fun p => st.relative rootDir p) →
      lookupKey (modulesAfter st rootDir fps acc) k = lookupKey acc k := by
  intro fps
  induction fps with
  | nil => intro acc k _; rfl
  | cons fp rest ih =>
      intro acc k hk
      simp only [List.map_cons, List.mem_cons, not_or] at hk
      unfold modulesAfter
      cases hsf : st.getSourceFile fp with
      | none => exact ih _ k hk.2
      | some sf =>
          rw [ih _ k hk.2, lookupKey_setKey_ne _ _ _ _ hk.1]

/-- With pairwise-distinct relative paths, each processed file's final
module record is found under its own relative path. -/
theorem lookupKey_modulesAfter_mem (st : Mapper) (rootDir : String) :
    ∀ (fps : List String) (acc : List (String × ModuleInfo)) (fp : String)
      (sf : SourceFile),
      fp ∈ fps →
      st.getSourceFile fp = some sf →
      (∀ p ∈ fps, st.getSourceFile p ≠ none) →
      (fps.map (fun p => st.relative rootDir p)).Nodup →
      lookupKey (modulesAfter st rootDir fps acc) (st.relative rootDir fp) =
        some (moduleFor st sf (st.relative rootDir fp)) := by
  intro fps
  induction fps with
  | nil =>
      intro acc fp sf hmem
      exact absurd hmem (List.not_mem_nil fp)
  | cons q rest ih =>
      intro acc fp sf hmem hsf hres hnodup
      rw [List.map_cons] at hnodup
      have hnodup' := List.nodup_cons.mp hnodup
      rcases List.mem_cons.mp hmem with heq | hmem'
      · subst heq
        unfold modulesAfter
        rw [hsf]
        rw [lookupKey_modulesAfter_notMem st rootDir rest _ _ hnodup'.1,
          lookupKey_setKey_self]
      · unfold modulesAfter
        cases hq : st.getSourceFile q with
        | none => exact absurd hq (hres q (by simp))
        | some sfq =>
            exact ih _ fp sf hmem' hsf (fun p hp => hres p (by simp [hp]))
              hnodup'.2

/-- A child that introduces no extractable declaration leaves the
module record unchanged. -/
theorem moduleChildUpdate_nonDecl (st : Mapper) (mi : ModuleInfo)
    (child : TsNode) (h : isDeclarationNode child = false) :
    moduleChildUpdate st mi child = mi := by
  cases child <;>
    simp_all [isDeclarationNode, moduleChildUpdate,
      processClassMembersModule, isClassDeclaration, TsNode.asFunctionLike]

/-- Over a file whose statements contain no declarations, the child
fold is the identity, so the file keeps its freshly built module
record. -/
theorem moduleFor_noDecls (st : Mapper) (sf : SourceFile) (rel : String)
    (h : sf.statements.all (fun s => !isDeclarationNode s)) :
    moduleFor st sf rel = extractModuleInfo st sf rel := by
  have key : ∀ (l : List TsNode) (mi : ModuleInfo),
      l.all (fun s => !isDeclarationNode s) →
      l.foldl (moduleChildUpdate st) mi = mi := by
    intro l
    induction l with
    | nil => intro mi _; rfl
    | cons c l' ih =>
        intro mi hall
        simp only [List.all_cons, Bool.and_eq_true, Bool.not_eq_true'] at hall
        simp only [List.foldl_cons]
        rw [moduleChildUpdate_nonDecl st mi c hall.1]
        exact ih mi (by simpa using hall.2)
  unfold moduleFor SourceFile.children
  rw [List.foldl_append, key sf.statements _ h, List.foldl_cons]
  simp only [List.foldl_nil]
  exact moduleChildUpdate_nonDecl st _ TsNode.eofToken rfl

/-- C1: a `buildCodebaseMap` run whose discovered files all resolve (as
distinct root-relative paths) succeeds with one project whose modules
map holds, under each file's root-relative path, the completed module
record of that file; a file with zero declarations in particular maps
to a record with empty `classes`/`functions`/`interfaces`/`enums` and
`dependencies` equal to its (possibly empty) printed import list. -/
theorem buildCodebaseMap_attaches_every_discovered_file (st : Mapper)
    (hres : ∀ p ∈ st.tsFiles, st.getSourceFile p ≠ none)
    (hnodup : (st.tsFiles.map (fun p => st.relative st.cwd p)).Nodup) :
    ∃ map : CodebaseMap,
      buildCodebaseMap st = Except.ok (Result.ok map none) ∧
      ∀ fp ∈ st.tsFiles, ∀ sf : SourceFile,
        st.getSourceFile fp = some sf →
        lookupKey map.modules (st.relative st.cwd fp) =
          some (moduleFor st sf (st.relative st.cwd fp)) ∧
        (sf.statements.all (fun s => !isDeclarationNode s) →
          moduleFor st sf (st.relative st.cwd fp) =
            { path := st.relative st.cwd fp, classes := [], functions := [],
              properties := none, interfaces := [], enums := [],
              dependencies := buildDependencyGraph st sf }) := by
  refine ⟨⟨st.basename st.cwd, modulesAfter st st.cwd st.tsFiles []⟩, ?_, ?_⟩
  · simp only [buildCodebaseMap]
    rw [buildCodebaseMapGo_resolved st st.cwd st.tsFiles [] hres]
  · intro fp hfp sf hsf
    refine ⟨?_, ?_⟩
    · exact lookupKey_modulesAfter_mem st st.cwd st.tsFiles [] fp sf hfp hsf
        hres hnodup
    · intro hall
      rw [moduleFor_noDecls st sf _ hall]
      rfl

/-- Witness for C1: a one-file discovery whose file holds one single
statement, an import, and no declarations. -/
theorem buildCodebaseMap_attaches_witness :
    ∃ map : CodebaseMap,
      buildCodebaseMap oneFileMapper = Except.ok (Result.ok map none) ∧
      ∀ fp ∈ oneFileMapper.tsFiles, ∀ sf : SourceFile,
        oneFileMapper.getSourceFile fp = some sf →
        lookupKey map.modules (oneFileMapper.relative oneFileMapper.cwd fp) =
          some (moduleFor oneFileMapper sf
            (oneFileMapper.relative oneFileMapper.cwd fp)) ∧
        (sf.statements.all (fun s => !isDeclarationNode s) →
          moduleFor oneFileMapper sf
              (oneFileMapper.relative oneFileMapper.cwd fp) =
            { path := oneFileMapper.relative oneFileMapper.cwd fp,
              classes := [], functions := [], properties := none,
              interfaces := [], enums := [],
              dependencies := buildDependencyGraph oneFileMapper sf }) :=
  buildCodebaseMap_attaches_every_discovered_file oneFileMapper
    (by
      intro p hp
      simp only [oneFileMapper, List.mem_singleton] at hp
      subst hp
      simp [oneFileMapper])
    (by simp [oneFileMapper])

end TsAnalyzer
